import Mathlib

set_option autoImplicit false
set_option maxHeartbeats 1000000

/-!
Shallow embedding of `src/e9t.py`, a command-line environment switcher.

The script reads JSON configuration files from a directory, builds a
registry mapping environment names to `(variables, path, lib)` tuples, and
either lists them, prints one (`--info`), or writes a shell init file and
spawns a subshell (`--load`).  Side effects (prints, file writes, process
spawns) are modelled as an explicit `Action` trace; the filesystem is
modelled by passing the directory listing (with each entry's parsed
content) as data.
-/

namespace E9t

/-- An observable side effect of one run of the program: a line printed to
standard output, a file written (path and full content), or a subprocess
spawned (argument vector). -/
inductive Action where
  | print (s : String)
  | writeFile (path content : String)
  | spawn (cmd : List String)
deriving DecidableEq

/-- `true` iff the action is a print (used to state "no file writes and no
subprocess spawns"). -/
def Action.isPrint : Action → Bool
  | .print _ => true
  | _ => false

/-- Minimal JSON value model, covering what `json.load` can return. -/
inductive Json where
  | null
  | bool (b : Bool)
  | num (n : Int)
  | str (s : String)
  | arr (elems : List Json)
  | obj (entries : List (String × Json))

mutual

/-- Decidable equality on `Json` (the automatic deriving does not handle
the nested `List` occurrences). -/
def jsonDecEq : (a b : Json) → Decidable (a = b)
  | .null, .null => isTrue rfl
  | .null, .bool _ => isFalse (fun h => nomatch h)
  | .null, .num _ => isFalse (fun h => nomatch h)
  | .null, .str _ => isFalse (fun h => nomatch h)
  | .null, .arr _ => isFalse (fun h => nomatch h)
  | .null, .obj _ => isFalse (fun h => nomatch h)
  | .bool _, .null => isFalse (fun h => nomatch h)
  | .bool a, .bool b =>
    if h : a = b then isTrue (by rw [h]) else isFalse (fun he => h (by cases he; rfl))
  | .bool _, .num _ => isFalse (fun h => nomatch h)
  | .bool _, .str _ => isFalse (fun h => nomatch h)
  | .bool _, .arr _ => isFalse (fun h => nomatch h)
  | .bool _, .obj _ => isFalse (fun h => nomatch h)
  | .num _, .null => isFalse (fun h => nomatch h)
  | .num _, .bool _ => isFalse (fun h => nomatch h)
  | .num a, .num b =>
    if h : a = b then isTrue (by rw [h]) else isFalse (fun he => h (by cases he; rfl))
  | .num _, .str _ => isFalse (fun h => nomatch h)
  | .num _, .arr _ => isFalse (fun h => nomatch h)
  | .num _, .obj _ => isFalse (fun h => nomatch h)
  | .str _, .null => isFalse (fun h => nomatch h)
  | .str _, .bool _ => isFalse (fun h => nomatch h)
  | .str _, .num _ => isFalse (fun h => nomatch h)
  | .str a, .str b =>
    if h : a = b then isTrue (by rw [h]) else isFalse (fun he => h (by cases he; rfl))
  | .str _, .arr _ => isFalse (fun h => nomatch h)
  | .str _, .obj _ => isFalse (fun h => nomatch h)
  | .arr _, .null => isFalse (fun h => nomatch h)
  | .arr _, .bool _ => isFalse (fun h => nomatch h)
  | .arr _, .num _ => isFalse (fun h => nomatch h)
  | .arr _, .str _ => isFalse (fun h => nomatch h)
  | .arr a, .arr b =>
    match jsonDecEqList a b with
    | isTrue h => isTrue (by rw [h])
    | isFalse h => isFalse (fun he => h (by cases he; rfl))
  | .arr _, .obj _ => isFalse (fun h => nomatch h)
  | .obj _, .null => isFalse (fun h => nomatch h)
  | .obj _, .bool _ => isFalse (fun h => nomatch h)
  | .obj _, .num _ => isFalse (fun h => nomatch h)
  | .obj _, .str _ => isFalse (fun h => nomatch h)
  | .obj _, .arr _ => isFalse (fun h => nomatch h)
  | .obj a, .obj b =>
    match jsonDecEqObj a b with
    | isTrue h => isTrue (by rw [h])
    | isFalse h => isFalse (fun he => h (by cases he; rfl))

/-- Decidable equality on lists of `Json` values. -/
def jsonDecEqList : (a b : List Json) → Decidable (a = b)
  | [], [] => isTrue rfl
  | [], _ :: _ => isFalse (fun h => nomatch h)
  | _ :: _, [] => isFalse (fun h => nomatch h)
  | x :: xs, y :: ys =>
    match jsonDecEq x y with
    | isFalse h => isFalse (fun he => h (by cases he; rfl))
    | isTrue h1 =>
      match jsonDecEqList xs ys with
      | isTrue h2 => isTrue (by rw [h1, h2])
      | isFalse h2 => isFalse (fun he => h2 (by cases he; rfl))

/-- Decidable equality on lists of key-value pairs of `Json` values. -/
def jsonDecEqObj : (a b : List (String × Json)) → Decidable (a = b)
  | [], [] => isTrue rfl
  | [], _ :: _ => isFalse (fun h => nomatch h)
  | _ :: _, [] => isFalse (fun h => nomatch h)
  | (k1, v1) :: xs, (k2, v2) :: ys =>
    if hk : k1 = k2 then
      match jsonDecEq v1 v2 with
      | isFalse h => isFalse (fun he => h (by cases he; rfl))
      | isTrue h1 =>
        match jsonDecEqObj xs ys with
        | isTrue h2 => isTrue (by rw [hk, h1, h2])
        | isFalse h2 => isFalse (fun he => h2 (by cases he; rfl))
    else isFalse (fun he => hk (by cases he; rfl))

end

instance : DecidableEq Json := jsonDecEq

/-- Python truthiness of a JSON value (`if name:`): empty string, zero,
empty list, empty dict, `False` and `None` are falsy. -/
def Json.truthy : Json → Bool
  | .null => false
  | .bool b => b
  | .num n => n != 0
  | .str s => s != ""
  | .arr xs => !xs.isEmpty
  | .obj kvs => !kvs.isEmpty

/-- Whether the Python value corresponding to this JSON value is hashable,
i.e. usable as a dict key (`environments[name] = data`); lists and dicts
are not. -/
def Json.hashable : Json → Bool
  | .arr _ => false
  | .obj _ => false
  | _ => true

/-- Python `str()` of a scalar JSON value, as used by `print(key)` and
f-string interpolation. -/
def Json.pyStr : Json → String
  | .null => "None"
  | .bool b => if b then "True" else "False"
  | .num n => toString n
  | .str s => s
  | .arr _ => ""
  | .obj _ => ""

/-- Dictionary lookup `data[k]` on a parsed JSON object.  `json.load`
keeps the last occurrence of a duplicated key, so the lookup returns the
last binding of `k`. -/
def objGet : List (String × Json) → String → Option Json
  | [], _ => none
  | kv :: rest, k =>
    match objGet rest k with
    | some v => some v
    | none => if kv.1 = k then some kv.2 else none

/-- The content of one directory entry as the scan sees it: a file the
`open` call cannot read (raises `OSError`), a readable file that is not
valid JSON (`json.load` raises `JSONDecodeError`), or a readable file
parsing to the given JSON value. -/
inductive FileData where
  | unreadable
  | notJson
  | json (j : Json)
deriving DecidableEq

/-- Result of `load_env_conf` on one file: success returns the raw `name`
value and the raw `(variables, path, lib)` values; `skip` models the
caught exceptions (`JSONDecodeError`, `KeyError`), after which the
function returns `(None, None)`; `raise` models an exception that the
`except` clause does not cover (`TypeError` from subscripting a non-dict
top-level value, `OSError` from `open`) escaping the function. -/
inductive LoadResult where
  | ok (name vars path lib : Json)
  | skip
  | raise
deriving DecidableEq

/-- `load_env_conf` (src/e9t.py lines 146-155): parse the file and return
`data['name'], (data['variables'], data['path'], data['lib'])`.  Only
`JSONDecodeError` and `KeyError` are caught. -/
def load_env_conf : FileData → LoadResult
  | .unreadable => .raise
  | .notJson => .skip
  | .json (.obj kvs) =>
    match objGet kvs "name", objGet kvs "variables",
          objGet kvs "path", objGet kvs "lib" with
    | some n, some v, some p, some l => .ok n v p l
    | _, _, _, _ => .skip
  | .json _ => .raise

/-- One entry of the scanned directory listing: its file name, whether it
is a directory, and (for files) its content. -/
structure DirEntry where
  fname : String
  isDir : Bool
  content : FileData
deriving DecidableEq

/-- Python `sep.flatten(xs)`. -/
def pyJoin (sep : String) : List String → String
  | [] => ""
  | [x] => x
  | x :: xs => x ++ sep ++ pyJoin sep xs

/-- Characters after the last `'.'` of a character list (the whole list
when it has no `'.'`). -/
def afterLastDot (cs : List Char) : List Char :=
  (cs.reverse.takeWhile (fun c => c != '.')).reverse

/-- Python `s.split('.')[-1]`: the last element of splitting at `'.'` is
exactly the substring after the last dot, or the whole string when there
is no dot. -/
def pyLastDotSeg (s : String) : String :=
  String.mk (afterLastDot s.data)

/-- The scan's selection test (src/e9t.py line 217):
`not os.path.isdir(conf_file) and conf_file.split('.')[-1] == 'json'`,
where `conf_file = f'{env_conf_dir}{sep}{file}'`.  Note that the split is
applied to the full constructed path, not to the bare file name. -/
def confSelected (sep dir : String) (e : DirEntry) : Bool :=
  !e.isDir && (pyLastDotSeg (dir ++ sep ++ e.fname) == "json")

/-- `s` ends with the literal five-character suffix `".json"`. -/
def endsWithDotJson (s : String) : Bool :=
  s.data.reverse.take 5 == ['n', 'o', 's', 'j', '.']

/-- `beginsList pat l` : `pat` is an initial segment of `l`. -/
def beginsList : List Char → List Char → Bool
  | [], _ => true
  | _ :: _, [] => false
  | a :: as, b :: bs => a == b && beginsList as bs

/-- `isInfixB pat l` : `pat` occurs contiguously inside `l`. -/
def isInfixB (pat : List Char) : List Char → Bool
  | [] => pat.isEmpty
  | c :: cs => beginsList pat (c :: cs) || isInfixB pat cs

/-- `s` starts with the string `pat`. -/
def strBeginsWith (pat s : String) : Bool :=
  beginsList pat.data s.data

/-- `pat` occurs as a contiguous substring of `s`. -/
def strHasSub (pat s : String) : Bool :=
  isInfixB pat.data s.data

/-- The raw `(variables, path, lib)` value tuple stored in the registry,
exactly as `load_env_conf` returns it. -/
abbrev EnvData := Json × Json × Json

/-- The `environments` dict: keys in insertion order. -/
abbrev PyDict := List (Json × EnvData)

/-- Python `==` as used for dict key identity: `bool` is a subclass of
`int`, so `True == 1` and `False == 0` (and they hash alike); numbers
compare by value, strings by content, `None` only to itself, and no
other cross-type pair of hashable JSON scalars is equal.  Lists and
dicts are unhashable and never become keys. -/
def pyKeyEq : Json → Json → Bool
  | .str a, .str b => a == b
  | .null, .null => true
  | .num a, .num b => a == b
  | .num a, .bool b => a == (if b then 1 else 0)
  | .bool a, .num b => (if a then (1 : Int) else 0) == b
  | .bool a, .bool b => a == b
  | _, _ => false

/-- Python dict assignment `d[k] = v`: if some existing key equals `k`
under Python key equality (identifying `True` with `1` and `False` with
`0`), overwrite its value in place, keeping the original key object and
its position; else append. -/
def dictInsert (d : PyDict) (k : Json) (v : EnvData) : PyDict :=
  if d.any (fun kv => pyKeyEq kv.1 k) then
    d.map (fun kv => if pyKeyEq kv.1 k then (kv.1, v) else kv)
  else d ++ [(k, v)]

/-- Python `d.get(k)`, with the same key equality. -/
def pyDictGet (d : PyDict) (k : Json) : Option EnvData :=
  (d.find? (fun kv => pyKeyEq kv.1 k)).map Prod.snd

/-- `message` (src/e9t.py lines 69-71): print the text only when verbose
output is enabled. -/
def message (verbose : Bool) (text : String) : List Action :=
  if verbose then [.print text] else []

/-- The registry-building loop of `main` (src/e9t.py lines 215-220),
processing the directory listing in order.  `acc` is the `environments`
dict built so far and `acts` the output produced so far (the loader's
verbose-only diagnostic; its exception details are elided from the text).
`none` models an uncaught exception aborting the scan. -/
def scanAux (verbose : Bool) (sep dir : String) (acc : PyDict)
    (acts : List Action) : List DirEntry → Option (PyDict × List Action)
  | [] => some (acc, acts)
  | e :: rest =>
    if confSelected sep dir e then
      match load_env_conf e.content with
      | .raise => none
      | .skip =>
        scanAux verbose sep dir acc
          (acts ++ message verbose
            ("Exception load env configuration file (" ++ (dir ++ sep ++ e.fname) ++ ")"))
          rest
      | .ok n v p l =>
        if n.truthy then
          if n.hashable then
            scanAux verbose sep dir (dictInsert acc n (v, p, l)) acts rest
          else none
        else scanAux verbose sep dir acc acts rest
    else scanAux verbose sep dir acc acts rest

/-- A well-typed `(variables, path, lib)` tuple, the shape the data model
prescribes for an environment config and the shape the renderers and the
shell launcher consume. -/
structure EnvTuple where
  vars : List (String × String)
  path : List String
  lib : List String
deriving DecidableEq

/-- Python `str()` of a scalar value used in an f-string or joined into a
path (`None` for list/dict values, which this model does not render). -/
def scalarStr : Json → Option String
  | .null => some "None"
  | .bool b => some (if b then "True" else "False")
  | .num n => some (toString n)
  | .str s => some s
  | _ => none

/-- Decode a raw JSON `path`/`lib` value into the list of strings that
`':'.flatten` needs (a non-string element makes `join` raise `TypeError`). -/
def decodeStrList : Json → Option (List String)
  | .arr xs =>
    xs.foldr
      (fun x acc =>
        match x, acc with
        | .str s, some l => some (s :: l)
        | _, _ => none)
      (some [])
  | _ => none

/-- Decode a raw JSON `variables` value into key/value pairs.  Values are
rendered with `str()` as the f-string `f'{var_key}={var_value}'` does;
list- or dict-valued variables are outside this model. -/
def decodeVars : Json → Option (List (String × String))
  | .obj kvs =>
    kvs.foldr
      (fun kv acc =>
        match scalarStr kv.2, acc with
        | some s, some l => some ((kv.1, s) :: l)
        | _, _ => none)
      (some [])
  | _ => none

/-- Decode the raw registry tuple `(variables, path, lib)` into the
well-typed form; `none` when rendering it would raise. -/
def decodeEnv (raw : EnvData) : Option EnvTuple :=
  match decodeVars raw.1, decodeStrList raw.2.1, decodeStrList raw.2.2 with
  | some vs, some ps, some ls => some ⟨vs, ps, ls⟩
  | _, _, _ => none

/-- `show_nix_platform_info` (src/e9t.py lines 77-81) as the list of lines
it prints.  Note: the source's line 81 joins `environment[1]` — the path
entries — into the `LD_LIBRARY_PATH` line, not `environment[2]`. -/
def show_nix_platform_info (environment : EnvTuple) : List String :=
  environment.vars.map (fun kv => kv.1 ++ "=" ++ kv.2)
    ++ ["PATH=" ++ pyJoin ":" environment.path ++ ":$PATH)"]
    ++ ["LD_LIBRARY_PATH=" ++ pyJoin ":" environment.path ++ ":$LD_LIBRARY_PATH"]

/-- `show_windows_platform_info` (src/e9t.py lines 87-90) as the list of
lines it prints. -/
def show_windows_platform_info (environment : EnvTuple) : List String :=
  environment.vars.map (fun kv => kv.1 ++ "=" ++ kv.2)
    ++ ["PATH=" ++ pyJoin ";" environment.path ++ ":%PATH%"]

/-- The lines `platform_apply_nix` (src/e9t.py lines 102-108) writes to
the rc file, one block per element of `environment_list`. -/
def nixRcLines (name : String) (environment_list : List EnvTuple) : List String :=
  (environment_list.map (fun environment =>
    ["PS1='\\e[0;31m(" ++ name ++ ")> \\e[m'"]
      ++ environment.vars.map (fun kv => kv.1 ++ "=" ++ kv.2)
      ++ ["PATH=" ++ pyJoin ":" environment.path ++ ":$PATH"]
      ++ ["LD_LIBRARY_PATH=" ++ pyJoin ":" environment.lib ++ ":$LD_LIBRARY_PATH"])).flatten

/-- Join lines into file content, each line terminated by a newline, as
the `f.write(... + '\n')` calls do. -/
def pyUnlines (lines : List String) : String :=
  pyJoin "" (lines.map (fun l => l ++ "\n"))

/-- `platform_apply_nix` (src/e9t.py lines 96-113): write the rc file at
the fixed path `/tmp/i9t.tmp`, then spawn `bash --rcfile /tmp/i9t.tmp`
and wait for it. -/
def platform_apply_nix (name home : String) (environment_list : List EnvTuple) :
    List Action :=
  let _ := home
  [.writeFile "/tmp/i9t.tmp" (pyUnlines (nixRcLines name environment_list)),
   .spawn ["bash", "--rcfile", "/tmp/i9t.tmp"]]

/-- The content `platform_apply_windows` (src/e9t.py lines 126-134) writes
to the batch file; the final `@cmd /k` line has no trailing newline. -/
def windowsBatContent (name : String) (environment_list : List EnvTuple) : String :=
  pyUnlines
    (["@echo off",
      "if not defined PROMPT set PROMPT=$P$G",
      "if not defined __ENV_OLD_PROMPT__ set __ENV_OLD_PROMPT__=%PROMPT%"]
      ++ (environment_list.map (fun environment =>
            environment.vars.map (fun kv => "set " ++ kv.1 ++ "=" ++ kv.2)
              ++ ["set PATH=" ++ pyJoin ";" environment.path ++ ";%PATH%"])).flatten)
    ++ "@cmd /k \"set PROMPT=[" ++ name ++ "] %__ENV_OLD_PROMPT__%\""

/-- `platform_apply_windows` (src/e9t.py lines 119-138): write the batch
file into the home directory, then spawn it and wait for it. -/
def platform_apply_windows (name home : String) (environment_list : List EnvTuple) :
    List Action :=
  [.writeFile (home ++ "\\__apply_environment.bat")
     (windowsBatContent name environment_list),
   .spawn [home ++ "\\__apply_environment.bat"]]

/-- One entry of the `platform_data` table (src/e9t.py lines 172-186):
the path separator, the info renderer, the apply/launch function, the
actions of the launcher's `except` branch (Linux logs through the verbose
channel, Windows swallows the exception), and the unused editor tuple. -/
structure PlatformConf where
  sep : String
  infoLines : EnvTuple → List String
  applyActs : String → String → List EnvTuple → List Action
  applyExnActs : Bool → List Action
  editors : List String

/-- The `Linux` row of `platform_data`. -/
def linuxConf : PlatformConf where
  sep := "/"
  infoLines := show_nix_platform_info
  applyActs := platform_apply_nix
  applyExnActs := fun verbose => message verbose "Exception"
  editors := ["xed", "mcedit", "nano", "vi"]

/-- The `Windows` row of `platform_data`. -/
def windowsConf : PlatformConf where
  sep := "\\"
  infoLines := show_windows_platform_info
  applyActs := platform_apply_windows
  applyExnActs := fun _ => []
  editors := ["notepad.exe"]

/-- `platform_data.get(platform.system())`: only the exact identifiers
`"Linux"` and `"Windows"` are recognized. -/
def platformOf (osName : String) : Option PlatformConf :=
  if osName == "Linux" then some linuxConf
  else if osName == "Windows" then some windowsConf
  else none

/-- The parsed command-line arguments (src/e9t.py lines 40-63). -/
structure Args where
  list : Bool
  verbose : Bool
  info : Option String
  config : Option String
  load : Option String
deriving DecidableEq

/-- Python truthiness of an optional string argument (`if args.info:`):
absent or empty means falsy. -/
def optTruthy : Option String → Bool
  | none => false
  | some s => s != ""

/-- The configuration directory (src/e9t.py line 204): the `--config`
value when truthy, else `<home><sep>.envconf`. -/
def confDir (sep : String) (args : Args) (home : String) : String :=
  if optTruthy args.config then args.config.getD "" else home ++ sep ++ ".envconf"

/-- `colorama.Fore.RED`. -/
def foreRED : String := "\x1b[31m"

/-- `colorama.Style.RESET_ALL`. -/
def styleRESET : String := "\x1b[0m"

/-- `main` (src/e9t.py lines 193-242) as a function from the run's inputs
to its observable action trace (`none` models an uncaught exception).
Inputs: the `platform.system()` string, the parsed arguments, the
resolved home directory (Linux `$HOME`, Windows `%HOMEDRIVE%%HOMEPATH%`),
whether `os.path.exists` holds of the configuration directory, and the
directory listing in enumeration order.  In the `--info` branch an
ill-typed registry tuple makes the renderer raise (uncaught, `none`); in
the `--load` branch the launcher catches every exception, modelled as the
platform's `except`-branch actions with no write or spawn. -/
def mainModel (osName : String) (args : Args) (home : String)
    (dirExists : Bool) (entries : List DirEntry) : Option (List Action) :=
  let verbose := args.verbose
  match platformOf osName with
  | none => some (message verbose "Unknown platform!")
  | some p =>
    let env_conf_dir := confDir p.sep args home
    if !dirExists then some (message verbose (env_conf_dir ++ " not exists"))
    else
      match scanAux verbose p.sep env_conf_dir [] [] entries with
      | none => none
      | some (environments, acts) =>
        if args.list then
          some (acts ++ environments.map (fun kv => Action.print kv.1.pyStr))
        else if optTruthy args.info then
          let iname := args.info.getD ""
          match pyDictGet environments (Json.str iname) with
          | some environment =>
            match decodeEnv environment with
            | some t => some (acts ++ (p.infoLines t).map Action.print)
            | none => none
          | none =>
            some (acts ++ message verbose ("Uncknow environment name: " ++ iname))
        else if optTruthy args.load then
          let lname := args.load.getD ""
          match pyDictGet environments (Json.str lname) with
          | some environment =>
            match decodeEnv environment with
            | some t => some (acts ++ p.applyActs lname home [t])
            | none => some (acts ++ p.applyExnActs verbose)
          | none =>
            some (acts
              ++ [Action.print (foreRED ++ "Unknown environment name: " ++ lname ++ styleRESET)]
              ++ environments.map (fun kv => Action.print kv.1.pyStr))
        else some acts

/-- The config from the spec's §8 test property:
`{"name":"qt5","path":["/a","/b"],"lib":["/c"],"variables":{"QTDIR":"/a"}}`. -/
def qt5Json : Json :=
  .obj [("name", .str "qt5"),
        ("path", .arr [.str "/a", .str "/b"]),
        ("lib", .arr [.str "/c"]),
        ("variables", .obj [("QTDIR", .str "/a")])]

/-- A directory entry holding the qt5 config. -/
def qt5Entry : DirEntry := ⟨"qt5.json", false, .json qt5Json⟩

/-- The qt5 config's well-typed tuple. -/
def qt5Tuple : EnvTuple := ⟨[("QTDIR", "/a")], ["/a", "/b"], ["/c"]⟩

/-- C1: the claim says the Linux info renderer's `LD_LIBRARY_PATH` line
joins the config's lib entries.  The code (src/e9t.py line 81) joins
`environment[1]`, the PATH entries, instead — evaluated here on a config
with path `["/a","/b"]` and lib `["/c"]`: the printed line is
`LD_LIBRARY_PATH=/a:/b:$LD_LIBRARY_PATH`, not `.../c:...`.  The variable
lines and the `PATH=...:$PATH)` line (with its literal trailing `)`)
match the claim; the lib entries never appear.  The sibling launcher
`platform_apply_nix` (line 108) correctly uses `environment[2]`, so the
renderer's reuse of `environment[1]` is a slip in the code. -/
theorem c1_ld_library_path_line_uses_path_entries :
    show_nix_platform_info qt5Tuple =
      ["QTDIR=/a",
       "PATH=/a:/b:$PATH)",
       "LD_LIBRARY_PATH=/a:/b:$LD_LIBRARY_PATH"] := rfl

/-- C7: the Windows info renderer prints one `KEY=VALUE` line per
variable, then exactly one line `PATH=<entries joined by ';'>:%PATH%`
(entries joined by `;` but `:` immediately before `%PATH%`), and nothing
else — in particular no `LD_LIBRARY_PATH` summary line, since the output
is exactly the variable lines plus that single PATH line. -/
theorem c7_windows_info_format (environment : EnvTuple) :
    show_windows_platform_info environment =
      environment.vars.map (fun kv => kv.1 ++ "=" ++ kv.2)
        ++ ["PATH=" ++ pyJoin ";" environment.path ++ ":%PATH%"] ∧
    (show_windows_platform_info environment).length = environment.vars.length + 1 := by
  refine ⟨rfl, ?_⟩
  simp [show_windows_platform_info]

/-- C3: invoking `--load qt5` on the Linux profile with the qt5 config in
the registry writes the init file `/tmp/i9t.tmp` whose content is the
newline-joined `nixRcLines`, containing the lines `QTDIR=/a`,
`PATH=/a:/b:$PATH`, `LD_LIBRARY_PATH=/c:$LD_LIBRARY_PATH`, and a
prompt-setting (`PS1=`) line containing the literal name `qt5`; it then
spawns `bash --rcfile /tmp/i9t.tmp`. -/
theorem c3_load_qt5_writes_init_file :
    mainModel "Linux" ⟨false, false, none, none, some "qt5"⟩ "/home/u" true [qt5Entry] =
      some [Action.writeFile "/tmp/i9t.tmp" (pyUnlines (nixRcLines "qt5" [qt5Tuple])),
            Action.spawn ["bash", "--rcfile", "/tmp/i9t.tmp"]] ∧
    "QTDIR=/a" ∈ nixRcLines "qt5" [qt5Tuple] ∧
    "PATH=/a:/b:$PATH" ∈ nixRcLines "qt5" [qt5Tuple] ∧
    "LD_LIBRARY_PATH=/c:$LD_LIBRARY_PATH" ∈ nixRcLines "qt5" [qt5Tuple] ∧
    ∃ l, l ∈ nixRcLines "qt5" [qt5Tuple] ∧ strBeginsWith "PS1=" l = true ∧
      strHasSub "qt5" l = true := by
  refine ⟨?_, ?_, ?_, ?_, ⟨"PS1='\\e[0;31m(qt5)> \\e[m'", ?_, rfl, ?_⟩⟩
  · rfl
  · decide
  · decide
  · decide
  · decide
  · decide

/-- C2 counterexample: a directory listing with N = 1 valid,
uniquely-named config (`qt5.json`) and M = 1 invalid one (`bad.json`,
whose content is the JSON array `[1, 2]`) does not yield a registry with
exactly 1 entry: subscripting the non-dict value raises an uncaught
`TypeError` and the whole scan aborts, so no registry is built at all. -/
theorem c2_counterexample :
    scanAux false "/" "d" [] []
      [qt5Entry, ⟨"bad.json", false, .json (.arr [.num 1, .num 2])⟩] = none := rfl

/-- C5 counterexample: a readable config file containing the valid JSON
value `[1, 2]` — invalid as a config (wrong structure) — does not make
the loader return the absent pair: `data['name']` raises `TypeError`,
which the `except (JSONDecodeError, KeyError)` clause does not catch, so
the exception escapes the loader and aborts the scan. -/
theorem c5_counterexample :
    load_env_conf (.json (.arr [.num 1, .num 2])) = .raise ∧
    scanAux false "/" "d" [] []
      [⟨"a.json", false, .json (.arr [.num 1, .num 2])⟩] = none := ⟨rfl, rfl⟩

/-- C8 counterexample: on an unrecognized operating system (`"Darwin"`)
with verbose mode disabled, the run prints nothing at all — the
`message('Unknown platform!')` diagnostic goes through the verbose-gated
channel — contradicting the claim that a diagnostic is printed regardless
of whether verbose mode is enabled. -/
theorem c8_counterexample :
    mainModel "Darwin" ⟨false, false, none, none, none⟩ "/h" true [] = some [] := rfl

/-- C8 amended: on an unrecognized operating system the program performs
no action at all (no registry build, listing, info output, file write, or
spawn); the `Unknown platform!` diagnostic is printed when verbose mode
is enabled and nothing is printed otherwise. -/
theorem c8_unknown_platform_exits (osName : String) (args : Args) (home : String)
    (dirExists : Bool) (entries : List DirEntry)
    (h : platformOf osName = none) :
    mainModel osName args home dirExists entries =
      some (if args.verbose then [Action.print "Unknown platform!"] else []) := by
  simp [mainModel, h, message]

/-- Witness for the C8 amended theorem at the concrete input
`osName = "Darwin"` with verbose mode enabled. -/
theorem c8_unknown_platform_exits_witness :
    platformOf "Darwin" = none ∧
    mainModel "Darwin" ⟨false, true, none, none, none⟩ "/h" false [] =
      some [Action.print "Unknown platform!"] :=
  ⟨rfl, c8_unknown_platform_exits "Darwin" ⟨false, true, none, none, none⟩ "/h" false [] rfl⟩

/-- C9 counterexample: `--info nope` with an empty registry and verbose
mode disabled prints nothing at all — the `Uncknow environment name`
diagnostic goes through the verbose-gated `message` channel — so no
diagnostic message is printed, contradicting the claim. -/
theorem c9_counterexample :
    mainModel "Linux" ⟨false, false, some "nope", none, none⟩ "/h" true [] = some [] := rfl

/-- Two booleans are equal when their truth propositions agree. -/
theorem bool_eq_of_iff {a b : Bool} (h : a = true ↔ b = true) : a = b := by
  cases a <;> cases b <;> simp_all

/-- String concatenation concatenates the underlying character lists. -/
theorem string_data_append (a b : String) : (a ++ b).data = a.data ++ b.data := by
  cases a
  cases b
  rfl

/-- `String.mk l = s` iff `l` is the character list of `s`. -/
theorem stringMk_eq_iff (l : List Char) (s : String) : String.mk l = s ↔ l = s.data := by
  cases s
  exact ⟨fun h => by injection h, fun h => by rw [h]⟩

/-- `takeWhile (· ≠ '.')` of `fr ++ sep :: dr` equals a dot-free,
`sep`-free word `t` exactly when `fr` begins with `t` followed by a dot. -/
theorem takeWhileDotAux (sep : Char) (hsep : sep ≠ '.') :
    ∀ (fr t dr : List Char), '.' ∉ t → sep ∉ t →
      (List.takeWhile (fun c => c != '.') (fr ++ sep :: dr) = t ↔
        fr.take (t.length + 1) = t ++ ['.']) := by
  intro fr
  induction fr with
  | nil =>
    intro t dr hdot hsept
    have hp : (sep != '.') = true := bne_iff_ne.mpr hsep
    constructor
    · intro h
      rw [List.nil_append, List.takeWhile_cons, hp] at h
      simp only [if_true] at h
      exfalso
      cases t with
      | nil => exact List.noConfusion h
      | cons x ts =>
        injection h with h1 _
        exact hsept (by rw [h1]; exact List.mem_cons_self x ts)
    · intro h
      simp at h
  | cons c fr' ih =>
    intro t dr hdot hsept
    by_cases hc : c = '.'
    · subst hc
      rw [List.cons_append, List.takeWhile_cons]
      simp only [bne_self_eq_false, Bool.false_eq_true, if_false]
      constructor
      · intro h
        subst h
        rfl
      · intro h
        cases t with
        | nil => rfl
        | cons x ts =>
          exfalso
          rw [List.length_cons, List.take_succ_cons] at h
          injection h with h1 _
          exact hdot (by rw [← h1]; exact List.mem_cons_self '.' ts)
    · have hp : (c != '.') = true := bne_iff_ne.mpr hc
      rw [List.cons_append, List.takeWhile_cons, hp]
      simp only [if_true]
      cases t with
      | nil =>
        constructor
        · intro h
          exact absurd h (by simp)
        · intro h
          exfalso
          simp only [List.length_nil, Nat.zero_add, List.take_succ_cons,
            List.take_zero, List.nil_append] at h
          injection h with h1 _
          exact hc h1
      | cons x ts =>
        have hdot' : '.' ∉ ts := fun hm => hdot (List.mem_cons_of_mem x hm)
        have hsept' : sep ∉ ts := fun hm => hsept (List.mem_cons_of_mem x hm)
        constructor
        · intro h
          injection h with h1 h2
          subst h1
          have h3 := (ih ts dr hdot' hsept').mp h2
          rw [List.length_cons, List.take_succ_cons, h3]
          rfl
        · intro h
          rw [List.length_cons, List.take_succ_cons] at h
          injection h with h1 h2
          subst h1
          have h3 := (ih ts dr hdot' hsept').mpr h2
          rw [h3]

/-- Character-level reading of the scan's extension test: the substring
of `dir ++ sep ++ fname` after its last dot is `json` exactly when
`fname` ends in `.json` (for a separator that is neither `.` nor a letter
of `json`). -/
theorem afterLastDot_json (sep : Char) (hsep : sep ≠ '.')
    (hn : sep ∉ (['n', 'o', 's', 'j'] : List Char)) (d f : List Char) :
    (afterLastDot (d ++ sep :: f) = "json".data ↔
      f.reverse.take 5 = ['n', 'o', 's', 'j', '.']) := by
  unfold afterLastDot
  rw [List.reverse_eq_iff]
  have hrev : (d ++ sep :: f).reverse = f.reverse ++ sep :: d.reverse := by
    simp
  rw [hrev]
  have hj : ("json".data).reverse = ['n', 'o', 's', 'j'] := rfl
  rw [hj]
  have := takeWhileDotAux sep hsep f.reverse ['n', 'o', 's', 'j'] d.reverse
    (by decide) hn
  simpa using this

/-- The scan's per-entry test with a one-character separator (that is
neither `.` nor a letter of `json`) holds exactly of non-directories whose
file name ends in `.json`. -/
theorem confSelected_eq (sepc : Char) (hsep : sepc ≠ '.')
    (hn : sepc ∉ (['n', 'o', 's', 'j'] : List Char))
    (sep : String) (hs : sep.data = [sepc]) (dir : String) (e : DirEntry) :
    confSelected sep dir e = (!e.isDir && endsWithDotJson e.fname) := by
  unfold confSelected
  congr 1
  have hpath : (dir ++ sep ++ e.fname).data = dir.data ++ sepc :: e.fname.data := by
    rw [string_data_append, string_data_append, hs]
    simp
  apply bool_eq_of_iff
  simp only [pyLastDotSeg, endsWithDotJson, beq_iff_eq, stringMk_eq_iff, hpath]
  exact afterLastDot_json sepc hsep hn dir.data e.fname.data

/-- C4 amended: for both platform separators, a directory entry is
selected for loading if and only if it is not a directory and its name
ends with the literal suffix `.json` — equivalently, the name contains a
dot and its final dot-separated segment is `json`; a dot-free name (even
one exactly equal to `json`) is excluded.  In particular `notes.txt` is
ignored, `env.a.json` is included, and `env.json.txt` and `a.json.bak`
are excluded. -/
theorem c4_selected_iff_name_ends_dotjson :
    (∀ (dir : String) (e : DirEntry),
        confSelected "/" dir e = (!e.isDir && endsWithDotJson e.fname)) ∧
    (∀ (dir : String) (e : DirEntry),
        confSelected "\\" dir e = (!e.isDir && endsWithDotJson e.fname)) ∧
    confSelected "/" "d" ⟨"notes.txt", false, .notJson⟩ = false ∧
    confSelected "/" "d" ⟨"env.a.json", false, .notJson⟩ = true ∧
    confSelected "/" "d" ⟨"env.json.txt", false, .notJson⟩ = false ∧
    confSelected "/" "d" ⟨"a.json.bak", false, .notJson⟩ = false := by
  refine ⟨?_, ?_, by decide, by decide, by decide, by decide⟩
  · exact fun dir e => confSelected_eq '/' (by decide) (by decide) "/" (by decide) dir e
  · exact fun dir e => confSelected_eq '\\' (by decide) (by decide) "\\" (by decide) dir e

/-- C4 counterexample: a non-directory entry named exactly `json`, with
fully valid config content, has final dot-separated segment `json`
(`"json".split('.')[-1] == "json"`), so the claim says it is loaded; but
the code splits the full path `confdir/json`, whose final segment is
`confdir/json`, so the entry is not selected and the scan loads nothing. -/
theorem c4_counterexample :
    pyLastDotSeg "json" = "json" ∧
    (⟨"json", false, .json qt5Json⟩ : DirEntry).isDir = false ∧
    confSelected "/" "confdir" ⟨"json", false, .json qt5Json⟩ = false ∧
    scanAux false "/" "confdir" [] [] [⟨"json", false, .json qt5Json⟩] =
      some ([], []) := ⟨rfl, rfl, rfl, rfl⟩

/-- Overwriting an existing key keeps the dict's key list. -/
theorem map_fst_overwrite (d : PyDict) (k : Json) (v : EnvData) :
    (d.map (fun kv => if pyKeyEq kv.1 k then (kv.1, v) else kv)).map Prod.fst =
      d.map Prod.fst := by
  induction d with
  | nil => rfl
  | cons a as iha => by_cases hc : pyKeyEq a.1 k = true <;> simp [hc, iha]

/-- Inserting a key that equals no existing key (under Python key
equality) appends the pair. -/
theorem dictInsert_fresh (d : PyDict) (k : Json) (v : EnvData)
    (h : ∀ k' ∈ d.map Prod.fst, pyKeyEq k' k = false) :
    dictInsert d k v = d ++ [(k, v)] := by
  have hany : d.any (fun kv => pyKeyEq kv.1 k) = false := by
    rw [List.any_eq_false]
    intro kv hkv
    have := h kv.1 (List.mem_map_of_mem Prod.fst hkv)
    simp [this]
  unfold dictInsert
  rw [hany]
  simp

/-- Python key coercion in the model: inserting under the key `1`
overwrites an entry keyed `True` (keeping the original key object), the
way `d = {True: a}; d[1] = b` leaves `{True: b}` with one entry. -/
theorem dictInsert_bool_num_collapse (a b : EnvData) :
    dictInsert [(Json.bool true, a)] (Json.num 1) b =
      [(Json.bool true, b)] := rfl

/-- Every key of `dictInsert d k v` is `k` or an existing key of `d`. -/
theorem dictInsert_key_mem (d : PyDict) (k : Json) (v : EnvData)
    (kv : Json × EnvData) (h : kv ∈ dictInsert d k v) :
    kv.1 = k ∨ kv.1 ∈ d.map Prod.fst := by
  unfold dictInsert at h
  by_cases hm : d.any (fun kv => pyKeyEq kv.1 k) = true
  · rw [if_pos hm] at h
    rcases List.mem_map.mp h with ⟨a, ha, hfa⟩
    right
    have hfst : ((if pyKeyEq a.1 k then (a.1, v) else a) : Json × EnvData).1 = a.1 := by
      by_cases hc : pyKeyEq a.1 k = true <;> simp [hc]
    rw [← hfa, hfst]
    exact List.mem_map_of_mem Prod.fst ha
  · rw [if_neg hm] at h
    rcases List.mem_append.mp h with h | h
    · right
      exact List.mem_map_of_mem Prod.fst h
    · left
      simp at h
      rw [h]

/-- Every action `message` emits is a print. -/
theorem message_prints (vb : Bool) (t : String) :
    ∀ a ∈ message vb t, a.isPrint = true := by
  intro a ha
  unfold message at ha
  by_cases hv : vb = true
  · rw [if_pos hv] at ha
    simp at ha
    rw [ha]
    rfl
  · rw [if_neg hv] at ha
    exact absurd ha (by simp)

/-- Every key of a registry built by the scan is truthy: the scan inserts
an entry only after the `if name and data:` test passes. -/
theorem scanAux_keys_truthy (vb : Bool) (sep dir : String) :
    ∀ (es : List DirEntry) (acc : PyDict) (acts : List Action)
      (d : PyDict) (acts' : List Action),
      (∀ kv ∈ acc, Json.truthy kv.1 = true) →
      scanAux vb sep dir acc acts es = some (d, acts') →
      ∀ kv ∈ d, Json.truthy kv.1 = true := by
  intro es
  induction es with
  | nil =>
    intro acc acts d acts' hacc h
    simp only [scanAux, Option.some.injEq, Prod.mk.injEq] at h
    rw [← h.1]
    exact hacc
  | cons e rest ih =>
    intro acc acts d acts' hacc h
    simp only [scanAux] at h
    by_cases hsel : confSelected sep dir e = true
    · rw [if_pos hsel] at h
      cases hl : load_env_conf e.content with
      | raise =>
        rw [hl] at h
        simp only [] at h
        exact absurd h (by simp)
      | skip =>
        rw [hl] at h
        simp only [] at h
        exact ih _ _ _ _ hacc h
      | ok n v p l =>
        rw [hl] at h
        simp only [] at h
        by_cases ht : Json.truthy n = true
        · rw [if_pos ht] at h
          by_cases hh : Json.hashable n = true
          · rw [if_pos hh] at h
            refine ih _ _ _ _ ?_ h
            intro kv hkv
            rcases dictInsert_key_mem acc n (v, p, l) kv hkv with h1 | h1
            · rw [h1]
              exact ht
            · rcases List.mem_map.mp h1 with ⟨a, ha, hfa⟩
              rw [← hfa]
              exact hacc a ha
          · rw [if_neg hh] at h
            exact absurd h (by simp)
        · rw [if_neg ht] at h
          exact ih _ _ _ _ hacc h
    · rw [if_neg hsel] at h
      exact ih _ _ _ _ hacc h

/-- Every action the scan appends to an all-print accumulator is a print:
the scan itself only ever prints (verbose diagnostics), it writes no file
and spawns no process. -/
theorem scanAux_acts_prints (vb : Bool) (sep dir : String) :
    ∀ (es : List DirEntry) (acc : PyDict) (acts : List Action)
      (d : PyDict) (acts' : List Action),
      (∀ a ∈ acts, a.isPrint = true) →
      scanAux vb sep dir acc acts es = some (d, acts') →
      ∀ a ∈ acts', a.isPrint = true := by
  intro es
  induction es with
  | nil =>
    intro acc acts d acts' hacts h
    simp only [scanAux, Option.some.injEq, Prod.mk.injEq] at h
    rw [← h.2]
    exact hacts
  | cons e rest ih =>
    intro acc acts d acts' hacts h
    simp only [scanAux] at h
    by_cases hsel : confSelected sep dir e = true
    · rw [if_pos hsel] at h
      cases hl : load_env_conf e.content with
      | raise =>
        rw [hl] at h
        simp only [] at h
        exact absurd h (by simp)
      | skip =>
        rw [hl] at h
        simp only [] at h
        refine ih _ _ _ _ ?_ h
        intro a ha
        rcases List.mem_append.mp ha with ha | ha
        · exact hacts a ha
        · exact message_prints vb _ a ha
      | ok n v p l =>
        rw [hl] at h
        simp only [] at h
        by_cases ht : Json.truthy n = true
        · rw [if_pos ht] at h
          by_cases hh : Json.hashable n = true
          · rw [if_pos hh] at h
            exact ih _ _ _ _ hacts h
          · rw [if_neg hh] at h
            exact absurd h (by simp)
        · rw [if_neg ht] at h
          exact ih _ _ _ _ hacts h
    · rw [if_neg hsel] at h
      exact ih _ _ _ _ hacts h

/-- The registry part of the scan result does not depend on the action
accumulator. -/
theorem scanAux_fst_acts (vb : Bool) (sep dir : String) :
    ∀ (es : List DirEntry) (acc : PyDict) (acts acts' : List Action),
      (scanAux vb sep dir acc acts es).map Prod.fst =
        (scanAux vb sep dir acc acts' es).map Prod.fst := by
  intro es
  induction es with
  | nil => intro acc acts acts'; rfl
  | cons e rest ih =>
    intro acc acts acts'
    simp only [scanAux]
    by_cases hsel : confSelected sep dir e = true
    · rw [if_pos hsel, if_pos hsel]
      cases hl : load_env_conf e.content with
      | raise => rfl
      | skip => exact ih _ _ _
      | ok n v p l =>
        simp only []
        by_cases ht : Json.truthy n = true
        · rw [if_pos ht, if_pos ht]
          by_cases hh : Json.hashable n = true
          · rw [if_pos hh, if_pos hh]
            exact ih _ _ _
          · rw [if_neg hh, if_neg hh]
        · rw [if_neg ht, if_neg ht]
          exact ih _ _ _
    · rw [if_neg hsel, if_neg hsel]
      exact ih _ _ _

/-- A JSON-object config missing one of the four required keys makes the
loader take the `KeyError` branch and return the absent pair. -/
theorem load_env_conf_obj_skip (kvs : List (String × Json))
    (h : objGet kvs "name" = none ∨ objGet kvs "variables" = none ∨
      objGet kvs "path" = none ∨ objGet kvs "lib" = none) :
    load_env_conf (.json (.obj kvs)) = .skip := by
  have hrw : load_env_conf (.json (.obj kvs)) =
      (match objGet kvs "name", objGet kvs "variables",
             objGet kvs "path", objGet kvs "lib" with
       | some n, some v, some p, some l => LoadResult.ok n v p l
       | _, _, _, _ => LoadResult.skip) := rfl
  rw [hrw]
  cases h1 : objGet kvs "name" with
  | none => rfl
  | some n =>
    cases h2 : objGet kvs "variables" with
    | none => rfl
    | some v =>
      cases h3 : objGet kvs "path" with
      | none => rfl
      | some p =>
        cases h4 : objGet kvs "lib" with
        | none => rfl
        | some l => rcases h with h | h | h | h <;> simp_all

/-- C5 amended: a config file that is malformed JSON, or parses to a
JSON object missing one of the four required keys, makes the loader
return the absent pair (`skip`), and the scan skips that file and
continues: the registry it builds is the same with or without the file.
(The original claim fails for other invalid files: a readable file whose
top-level JSON value is not an object, or an unreadable file, raises out
of the loader and aborts the scan — see the counterexample.) -/
theorem c5_skip_invalid_file (e : DirEntry)
    (h : e.content = .notJson ∨
      ∃ kvs, e.content = .json (.obj kvs) ∧
        (objGet kvs "name" = none ∨ objGet kvs "variables" = none ∨
         objGet kvs "path" = none ∨ objGet kvs "lib" = none)) :
    load_env_conf e.content = .skip ∧
    ∀ (vb : Bool) (sep dir : String) (acc : PyDict) (acts : List Action)
      (rest : List DirEntry),
      (scanAux vb sep dir acc acts (e :: rest)).map Prod.fst =
        (scanAux vb sep dir acc acts rest).map Prod.fst := by
  have hskip : load_env_conf e.content = .skip := by
    rcases h with h | ⟨kvs, hk, hm⟩
    · rw [h]
      rfl
    · rw [hk]
      exact load_env_conf_obj_skip kvs hm
  refine ⟨hskip, ?_⟩
  intro vb sep dir acc acts rest
  simp only [scanAux]
  by_cases hsel : confSelected sep dir e = true
  · rw [if_pos hsel, hskip]
    exact scanAux_fst_acts vb sep dir rest acc _ _
  · rw [if_neg hsel]

/-- Witness for the C5 amended theorem at a concrete malformed file. -/
theorem c5_skip_invalid_file_witness :
    load_env_conf (⟨"m.json", false, .notJson⟩ : DirEntry).content = .skip ∧
    ∀ (vb : Bool) (sep dir : String) (acc : PyDict) (acts : List Action)
      (rest : List DirEntry),
      (scanAux vb sep dir acc acts ((⟨"m.json", false, .notJson⟩ : DirEntry) :: rest)).map
          Prod.fst =
        (scanAux vb sep dir acc acts rest).map Prod.fst :=
  c5_skip_invalid_file ⟨"m.json", false, .notJson⟩ (Or.inl rfl)

/-- C10: a config file that parses to a JSON object with all four keys
but whose `name` value is the empty string is excluded from the registry:
the scan with that file builds the same registry as without it, and in
general every string-valued key of a scanned registry is non-empty (the
`if name and data:` truthiness test filters out the empty name). -/
theorem c10_empty_name_excluded (sep dir : String) (e : DirEntry)
    (h : ∃ v p l, load_env_conf e.content = .ok (.str "") v p l) :
    (∀ (vb : Bool) (acc : PyDict) (acts : List Action) (rest : List DirEntry),
      scanAux vb sep dir acc acts (e :: rest) = scanAux vb sep dir acc acts rest) ∧
    ∀ (vb : Bool) (entries : List DirEntry) (d : PyDict) (acts : List Action),
      scanAux vb sep dir [] [] entries = some (d, acts) →
      ∀ kv ∈ d, ∀ s, kv.1 = Json.str s → s ≠ "" := by
  obtain ⟨v, p, l, hload⟩ := h
  constructor
  · intro vb acc acts rest
    simp only [scanAux]
    by_cases hsel : confSelected sep dir e = true
    · rw [if_pos hsel, hload]
      simp [Json.truthy]
    · rw [if_neg hsel]
  · intro vb entries d acts hscan kv hkv s hs
    have := scanAux_keys_truthy vb sep dir entries [] [] d acts (by simp) hscan kv hkv
    rw [hs] at this
    simp only [Json.truthy, bne_iff_ne, ne_eq] at this
    intro hempty
    exact this hempty

/-- Witness for C10 at a concrete config whose `name` is `""`. -/
theorem c10_empty_name_excluded_witness :
    (∀ (vb : Bool) (acc : PyDict) (acts : List Action) (rest : List DirEntry),
      scanAux vb "/" "d" acc acts
          ((⟨"e.json", false, .json (.obj [("name", .str ""), ("path", .arr []),
            ("lib", .arr []), ("variables", .obj [])])⟩ : DirEntry) :: rest) =
        scanAux vb "/" "d" acc acts rest) ∧
    ∀ (vb : Bool) (entries : List DirEntry) (d : PyDict) (acts : List Action),
      scanAux vb "/" "d" [] [] entries = some (d, acts) →
      ∀ kv ∈ d, ∀ s, kv.1 = Json.str s → s ≠ "" :=
  c10_empty_name_excluded "/" "d"
    ⟨"e.json", false, .json (.obj [("name", .str ""), ("path", .arr []),
      ("lib", .arr []), ("variables", .obj [])])⟩
    ⟨.obj [], .arr [], .arr [], rfl⟩

/-- The net effect of one directory entry on the scan: ignored, one
registry insertion, or an uncaught exception aborting the scan.  Follows
the branch structure of the loop body (src/e9t.py lines 216-220). -/
inductive Effect where
  | noop
  | insert (k : Json) (v : EnvData)
  | crash
deriving DecidableEq

/-- Classify one entry's effect on the registry, mirroring the scan loop:
unselected entries and skipped or falsy-named configs do nothing,
truthy hashable names insert, everything else raises. -/
def entryEffect (sep dir : String) (e : DirEntry) : Effect :=
  if confSelected sep dir e then
    match load_env_conf e.content with
    | .raise => .crash
    | .skip => .noop
    | .ok n v p l =>
      if n.truthy then (if n.hashable then .insert n (v, p, l) else .crash)
      else .noop
  else .noop

/-- The name an entry contributes to the registry, when it contributes. -/
def insertedName (sep dir : String) (e : DirEntry) : Option Json :=
  match entryEffect sep dir e with
  | .insert k _ => some k
  | _ => none

/-- The key-value pair an entry contributes to the registry. -/
def insertedPair (sep dir : String) (e : DirEntry) : Option (Json × EnvData) :=
  match entryEffect sep dir e with
  | .insert k v => some (k, v)
  | _ => none

/-- When no entry crashes and the contributed names are pairwise
distinct as Python dict keys (and fresh w.r.t. the accumulator's keys),
the scan succeeds and appends exactly the contributed pairs, in listing
order. -/
theorem scanAux_inserts (vb : Bool) (sep dir : String) :
    ∀ (es : List DirEntry) (acc : PyDict) (acts : List Action),
      (∀ e ∈ es, entryEffect sep dir e ≠ .crash) →
      (acc.map Prod.fst ++ es.filterMap (insertedName sep dir)).Pairwise
        (fun a b => pyKeyEq a b = false) →
      ∃ acts', scanAux vb sep dir acc acts es =
        some (acc ++ es.filterMap (insertedPair sep dir), acts') := by
  intro es
  induction es with
  | nil =>
    intro acc acts _ _
    exact ⟨acts, by simp [scanAux]⟩
  | cons e rest ih =>
    intro acc acts hsafe hnd
    have hsafe_e := hsafe e (List.mem_cons_self e rest)
    have hsafe' : ∀ x ∈ rest, entryEffect sep dir x ≠ .crash :=
      fun x hx => hsafe x (List.mem_cons_of_mem e hx)
    simp only [scanAux]
    by_cases hsel : confSelected sep dir e = true
    · rw [if_pos hsel]
      cases hl : load_env_conf e.content with
      | raise =>
        exact absurd (by simp [entryEffect, hsel, hl]) hsafe_e
      | skip =>
        have hname : insertedName sep dir e = none := by
          simp [insertedName, entryEffect, hsel, hl]
        have hpair : insertedPair sep dir e = none := by
          simp [insertedPair, entryEffect, hsel, hl]
        simp only [List.filterMap_cons, hname] at hnd
        simp only [List.filterMap_cons, hpair]
        exact ih acc _ hsafe' hnd
      | ok n v p l =>
        simp only []
        by_cases ht : Json.truthy n = true
        · by_cases hh : Json.hashable n = true
          · rw [if_pos ht, if_pos hh]
            have hname : insertedName sep dir e = some n := by
              simp [insertedName, entryEffect, hsel, hl, ht, hh]
            have hpair : insertedPair sep dir e = some (n, (v, p, l)) := by
              simp [insertedPair, entryEffect, hsel, hl, ht, hh]
            simp only [List.filterMap_cons, hname] at hnd
            simp only [List.filterMap_cons, hpair]
            have hknotin : ∀ k' ∈ acc.map Prod.fst, pyKeyEq k' n = false := by
              intro k' hk'
              exact (List.pairwise_append.mp hnd).2.2 k' hk' n
                (List.mem_cons_self n _)
            rw [dictInsert_fresh acc n (v, p, l) hknotin]
            have hnd' : ((acc ++ [(n, (v, p, l))]).map Prod.fst
                ++ rest.filterMap (insertedName sep dir)).Pairwise
                  (fun a b => pyKeyEq a b = false) := by
              simpa [List.append_assoc] using hnd
            obtain ⟨acts', hscan⟩ := ih (acc ++ [(n, (v, p, l))]) acts hsafe' hnd'
            refine ⟨acts', ?_⟩
            rw [hscan]
            simp [List.append_assoc]
          · exact absurd (by simp [entryEffect, hsel, hl, ht, hh]) hsafe_e
        · rw [if_neg ht]
          have hname : insertedName sep dir e = none := by
            simp [insertedName, entryEffect, hsel, hl, ht]
          have hpair : insertedPair sep dir e = none := by
            simp [insertedPair, entryEffect, hsel, hl, ht]
          simp only [List.filterMap_cons, hname] at hnd
          simp only [List.filterMap_cons, hpair]
          exact ih acc acts hsafe' hnd
    · rw [if_neg hsel]
      have hname : insertedName sep dir e = none := by
        simp [insertedName, entryEffect, hsel]
      have hpair : insertedPair sep dir e = none := by
        simp [insertedPair, entryEffect, hsel]
      simp only [List.filterMap_cons, hname] at hnd
      simp only [List.filterMap_cons, hpair]
      exact ih acc acts hsafe' hnd

/-- C2 amended: for a directory listing whose entries never raise (no
unreadable file, no readable non-object JSON) and whose contributed names
are pairwise distinct as Python dict keys (Python identifies `True` with
`1` and `False` with `0`), the registry has exactly one entry per
contributing (valid) config, keyed in listing order by each config's
`name` value — N entries for N valid configs, nothing for the M skipped
ones — and a config missing any of the four required keys contributes no
entry.  (The original claim fails when an invalid file raises: see the
counterexample, where the scan aborts and no registry is built.) -/
theorem c2_registry_counts (vb : Bool) (sep dir : String) (entries : List DirEntry)
    (hsafe : ∀ e ∈ entries, entryEffect sep dir e ≠ .crash)
    (huniq : (entries.filterMap (insertedName sep dir)).Pairwise
      (fun a b => pyKeyEq a b = false)) :
    ∃ d acts, scanAux vb sep dir [] [] entries = some (d, acts) ∧
      d.map Prod.fst = entries.filterMap (insertedName sep dir) ∧
      d.length = (entries.filterMap (insertedName sep dir)).length ∧
      ∀ e ∈ entries,
        (∃ kvs, e.content = .json (.obj kvs) ∧
          (objGet kvs "name" = none ∨ objGet kvs "variables" = none ∨
           objGet kvs "path" = none ∨ objGet kvs "lib" = none)) →
        insertedName sep dir e = none := by
  obtain ⟨acts', hscan⟩ :=
    scanAux_inserts vb sep dir entries [] [] hsafe (by simpa using huniq)
  have hpt : ∀ e, (insertedPair sep dir e).map Prod.fst = insertedName sep dir e := by
    intro e
    unfold insertedPair insertedName
    cases entryEffect sep dir e <;> rfl
  have hfst : (entries.filterMap (insertedPair sep dir)).map Prod.fst =
      entries.filterMap (insertedName sep dir) := by
    rw [List.map_filterMap]
    simp only [hpt]
  refine ⟨entries.filterMap (insertedPair sep dir), acts', by simpa using hscan,
    hfst, ?_, ?_⟩
  · rw [← hfst, List.length_map]
  · rintro e he ⟨kvs, hk, hm⟩
    have hskip : load_env_conf e.content = .skip := by
      rw [hk]
      exact load_env_conf_obj_skip kvs hm
    by_cases hsel : confSelected sep dir e = true <;>
      simp [insertedName, entryEffect, hsel, hskip]

/-- The concrete listing for the C2 witness: one valid config, one
malformed JSON file, and one unreadable file that is not selected. -/
def c2WitnessEntries : List DirEntry :=
  [qt5Entry, ⟨"m.json", false, .notJson⟩, ⟨"notes.txt", false, .unreadable⟩]

/-- Witness for the C2 amended theorem on a concrete directory listing. -/
theorem c2_registry_counts_witness :
    (∀ e ∈ c2WitnessEntries, entryEffect "/" "d" e ≠ .crash) ∧
    (c2WitnessEntries.filterMap (insertedName "/" "d")).Pairwise
      (fun a b => pyKeyEq a b = false) ∧
    ∃ d acts, scanAux false "/" "d" [] [] c2WitnessEntries = some (d, acts) ∧
      d.map Prod.fst = c2WitnessEntries.filterMap (insertedName "/" "d") ∧
      d.length = (c2WitnessEntries.filterMap (insertedName "/" "d")).length ∧
      ∀ e ∈ c2WitnessEntries,
        (∃ kvs, e.content = .json (.obj kvs) ∧
          (objGet kvs "name" = none ∨ objGet kvs "variables" = none ∨
           objGet kvs "path" = none ∨ objGet kvs "lib" = none)) →
        insertedName "/" "d" e = none :=
  ⟨by decide, by decide,
    c2_registry_counts false "/" "d" c2WitnessEntries (by decide) (by decide)⟩

/-- C6: `--load` with a name absent from the registry prints the colored
`Unknown environment name` message followed by every known environment
name, and the whole run performs no file write and no subprocess spawn
(every emitted action is a print; the shell launcher is never invoked). -/
theorem c6_load_unknown (osName : String) (p : PlatformConf) (args : Args)
    (home : String) (entries : List DirEntry) (n : String) (d : PyDict)
    (acts : List Action)
    (hp : platformOf osName = some p)
    (hlist : args.list = false)
    (hinfo : args.info = none)
    (hload : args.load = some n) (hne : n ≠ "")
    (hscan : scanAux args.verbose p.sep (confDir p.sep args home) [] [] entries =
      some (d, acts))
    (hunknown : pyDictGet d (.str n) = none) :
    mainModel osName args home true entries =
      some (acts
        ++ [Action.print (foreRED ++ "Unknown environment name: " ++ n ++ styleRESET)]
        ++ d.map (fun kv => Action.print kv.1.pyStr)) ∧
    ∀ a ∈ acts
        ++ [Action.print (foreRED ++ "Unknown environment name: " ++ n ++ styleRESET)]
        ++ d.map (fun kv => Action.print kv.1.pyStr),
      a.isPrint = true := by
  constructor
  · simp [mainModel, hp, hscan, hlist, hinfo, hload, hunknown, optTruthy, hne]
  · intro a ha
    rcases List.mem_append.mp ha with ha | ha
    · rcases List.mem_append.mp ha with ha | ha
      · exact scanAux_acts_prints args.verbose p.sep _ entries [] [] d acts
          (by simp) hscan a ha
      · simp at ha
        rw [ha]
        rfl
    · rcases List.mem_map.mp ha with ⟨kv, _, hkv⟩
      rw [← hkv]
      rfl

/-- Witness for C6 at a concrete unknown-name invocation. -/
theorem c6_load_unknown_witness :
    mainModel "Linux" ⟨false, false, none, none, some "x"⟩ "/h" true [] =
      some ([]
        ++ [Action.print (foreRED ++ "Unknown environment name: " ++ "x" ++ styleRESET)]
        ++ ([] : PyDict).map (fun kv => Action.print kv.1.pyStr)) ∧
    ∀ a ∈ ([] : List Action)
        ++ [Action.print (foreRED ++ "Unknown environment name: " ++ "x" ++ styleRESET)]
        ++ ([] : PyDict).map (fun kv => Action.print kv.1.pyStr),
      a.isPrint = true :=
  c6_load_unknown "Linux" linuxConf ⟨false, false, none, none, some "x"⟩ "/h" [] "x"
    [] [] rfl rfl rfl rfl (by decide) rfl rfl

/-- C9 amended: `--info` with an unknown name never crashes and launches
nothing — the run is all prints — but the `Uncknow environment name`
diagnostic is emitted only through the verbose-gated `message` channel
(nothing is printed without `-V`); `--info` with a known name invokes the
selected platform profile's info renderer on that name's resolved config.
(The original claim fails because the unknown-name diagnostic is not
printed in non-verbose mode: see the counterexample.) -/
theorem c9_info_dispatch (osName : String) (p : PlatformConf) (args : Args)
    (home : String) (entries : List DirEntry) (n : String) (d : PyDict)
    (acts : List Action)
    (hp : platformOf osName = some p)
    (hlist : args.list = false)
    (hinfo : args.info = some n) (hne : n ≠ "")
    (hscan : scanAux args.verbose p.sep (confDir p.sep args home) [] [] entries =
      some (d, acts)) :
    (pyDictGet d (.str n) = none →
      mainModel osName args home true entries =
        some (acts ++ message args.verbose ("Uncknow environment name: " ++ n)) ∧
      ∀ a ∈ acts ++ message args.verbose ("Uncknow environment name: " ++ n),
        a.isPrint = true) ∧
    (∀ environment t, pyDictGet d (.str n) = some environment →
      decodeEnv environment = some t →
      mainModel osName args home true entries =
        some (acts ++ (p.infoLines t).map Action.print)) := by
  constructor
  · intro hunknown
    constructor
    · simp [mainModel, hp, hscan, hlist, hinfo, hunknown, optTruthy, hne]
    · intro a ha
      rcases List.mem_append.mp ha with ha | ha
      · exact scanAux_acts_prints args.verbose p.sep _ entries [] [] d acts
          (by simp) hscan a ha
      · exact message_prints args.verbose _ a ha
  · intro environment t hfound hdec
    simp [mainModel, hp, hscan, hlist, hinfo, hfound, hdec, optTruthy, hne]

/-- Witness for the C9 amended theorem at a concrete verbose
unknown-name invocation. -/
theorem c9_info_dispatch_witness :
    mainModel "Linux" ⟨false, true, some "nope", none, none⟩ "/h" true [] =
      some ([] ++ message true ("Uncknow environment name: " ++ "nope")) ∧
    ∀ a ∈ ([] : List Action) ++ message true ("Uncknow environment name: " ++ "nope"),
      a.isPrint = true :=
  (c9_info_dispatch "Linux" linuxConf ⟨false, true, some "nope", none, none⟩ "/h" []
    "nope" [] [] rfl rfl rfl (by decide) rfl).1 rfl

end E9t
